import Mathlib

/-!
Shallow embedding of the operator-evaluation and clustering core of the
observer_ward engine (src/engine/src/operators/mod.rs and
src/engine/src/execute.rs).

Modelling conventions:
* Rust `Vec` becomes `List`; `HashSet<String>` becomes a `List String`
  mutated only through a membership-checking insert; `BTreeMap` becomes an
  association list mutated only through a replace-or-append insert, so
  lookups behave like the map's.
* The per-kind matcher/extractor primitives (`match_word`, `match_regex`,
  `match_favicon`, `match_status_code`, `extract_regex`, `extract_json`)
  live in modules outside the excerpted core; they are carried as opaque
  function payloads inside the corresponding variant, so every control-flow
  decision of the core is translated exactly while the primitive stays
  abstract.
* Rust's `&mut OperatorResult` together with the `Result<()>` return value
  is modelled by returning the pair `(Except EngineError Unit, OperatorResult)`:
  mutations performed before an early error return are kept, as in Rust.
-/

namespace Engine

/-- Errors produced by the engine core.  The only error constructed inside the
excerpted code is the IO error "not found favicon"; content-retrieval errors
from `get_matcher_word_from_part` are abstracted by the same type. -/
inductive EngineError where
  | io : String → EngineError
  | retrieval : String → EngineError
deriving DecidableEq, Repr

/-- Opaque stand-in for `crate::info::Version` (module not in the excerpt). -/
abbrev Version := String

/-- Opaque stand-in for `FaviconMap` (module not in the excerpt). -/
abbrev FaviconMap := String

/-- Content-part selector (`Part` in operators/matchers.rs): a named slice of
retrievable content — header, body, or raw/all. -/
inductive Part where
  | header
  | body
  | all
deriving DecidableEq, Repr

/-- The `OperatorTarget` capability reduced to the one method the core uses:
`get_matcher_word_from_part`, yielding a tokenized word list and a body
string, or a retrieval error. -/
abbrev Target := Part → Except EngineError (List String × String)

/-- `Condition` between matchers; the serde default is `Or`. -/
inductive Condition where
  | Or
  | And
deriving DecidableEq, Repr

instance : Inhabited Condition := ⟨Condition.Or⟩

/-- `MatcherType`: discriminated matcher kind.  Word/Regex/Favicon/Status carry
their (externally defined) evaluation primitive as an opaque payload:
for Word the payload is `match_word` applied to the configured word list,
taking the target's word list; for Regex it is `match_regex` taking words and
body; for Favicon it is `match_favicon` taking the response's hash map; for
Status it is `match_status_code` taking the numeric status code.  The reserved
kinds None/DSL/Binary/XPath carry nothing and always evaluate to non-match. -/
inductive MatcherType where
  | word (eval : List String → Bool × List String)
  | favicon (eval : List (String × FaviconMap) → Bool × List String)
  | status (eval : Nat → Bool)
  | regex (eval : List String → String → Bool × List String)
  | none
  | dsl
  | binary
  | xpath

/-- One matcher: kind, content part, optional name, negate flag. -/
structure Matcher where
  matcher_type : MatcherType
  part : Part := Part.body
  name : Option String := Option.none
  negative : Bool := false

/-- Modelled from the spec: `Matcher::negative` (matchers.rs, outside the
excerpt) — "Negate flag inverts the raw boolean before condition
bookkeeping". -/
def Matcher.applyNegative (m : Matcher) (b : Bool) : Bool :=
  if m.negative then !b else b

/-- `ExtractorType`: Regex and JSON carry the external extraction primitives
(`extract_regex` over words/body/version hint, `extract_json` over words),
each returning the extracted string set together with a version-tag map;
the reserved kinds KVal/XPath/DSL always produce nothing. -/
inductive ExtractorType where
  | regex (eval : List String → String → Option Version → List String × List (String × String))
  | json (eval : List String → List String × List (String × String))
  | kval
  | xpath
  | dsl

/-- One extractor: kind, content part, optional name used as result key. -/
structure Extractor where
  extractor_type : ExtractorType
  part : Part := Part.body
  name : Option String := Option.none

/-- `Operators`: matcher list under an AND/OR condition with an optional
stop-at-first-match flag, plus an extractor list. -/
structure Operators where
  stop_at_first_match : Bool := false
  matchers_condition : Condition := Condition.Or
  matchers : List Matcher := []
  extractors : List Extractor := []

/-- A response-like target: the content accessor plus the response metadata
the core reads — the numeric status code and the optional favicon hash map
stored in `extensions()`. -/
structure Response where
  get_part : Target
  status_code : Nat
  favicon_ext : Option (List (String × FaviconMap))

/-- `OperatorResult`: the mutable accumulator of one evaluation. -/
structure OperatorResult where
  matched : Bool := false
  name : List String := []
  matcher_word : List String := []
  extract_result : List (String × List String) := []
deriving DecidableEq, Repr

instance : Inhabited OperatorResult := ⟨{}⟩

def OperatorResult.is_matched (r : OperatorResult) : Bool := r.matched

def OperatorResult.is_extract (r : OperatorResult) : Bool := !r.extract_result.isEmpty

/-- `HashSet::insert`: add the element unless already present. -/
def setInsert (s : List String) (x : String) : List String :=
  if x ∈ s then s else s ++ [x]

/-- `HashSet::extend`: insert every element of the second list. -/
def setExtend (s : List String) (xs : List String) : List String :=
  xs.foldl setInsert s

/-- `BTreeMap::insert`: replace the value at the key, or append the binding. -/
def btInsert (m : List (String × List String)) (k : String) (v : List String) :
    List (String × List String) :=
  match m with
  | [] => [(k, v)]
  | (k0, v0) :: rest => if k0 = k then (k, v) :: rest else (k0, v0) :: btInsert rest k v

/-- The named-extraction merge of `extractor_generic` lines 111-117:
extend the existing set at the key, or insert the new binding. -/
def mergeExtract (m : List (String × List String)) (k : String) (v : List String) :
    List (String × List String) :=
  match List.lookup k m with
  | some old => btInsert m k (setExtend old v)
  | Option.none => btInsert m k v

/-- The per-kind match step of `matcher_generic` (lines 150-183): dispatch on
the matcher kind, consulting `response_for_extensions` for Favicon and Status.
Favicon with a response whose extensions lack the hash map is a hard error;
Favicon or Status without a response is a silent non-match. -/
def evalMatcherKind (m : Matcher) (respExt : Option Response) (words : List String)
    (body : String) : Except EngineError (Bool × List String) :=
  match m.matcher_type with
  | MatcherType.word f => Except.ok (f words)
  | MatcherType.favicon f =>
    match respExt with
    | some resp =>
      match resp.favicon_ext with
      | some hm => Except.ok (f hm)
      | Option.none => Except.error (EngineError.io "not found favicon")
    | Option.none => Except.ok (false, [])
  | MatcherType.status f =>
    match respExt with
    | some resp => Except.ok (f resp.status_code, [toString resp.status_code])
    | Option.none => Except.ok (false, [])
  | MatcherType.regex f => Except.ok (f words body)
  | MatcherType.none | MatcherType.dsl | MatcherType.binary | MatcherType.xpath =>
    Except.ok (false, [])

/-- One full matcher evaluation: retrieve the part content, run the kind
dispatch, then apply the negate flag to the boolean (the matched-word list is
not affected by negation). -/
def evalOne (target : Target) (respExt : Option Response) (m : Matcher) :
    Except EngineError (Bool × List String) :=
  match target m.part with
  | Except.error e => Except.error e
  | Except.ok (words, body) =>
    match evalMatcherKind m respExt words body with
    | Except.error e => Except.error e
    | Except.ok (b, mw) => Except.ok (m.applyNegative b, mw)

/-- The post-negation boolean of one matcher, `none` when evaluation errors. -/
def evalBool (target : Target) (respExt : Option Response) (m : Matcher) : Option Bool :=
  match evalOne target respExt m with
  | Except.ok (b, _) => some b
  | Except.error _ => Option.none

/-- The matcher loop of `matcher_generic` (lines 147-207).  `acc` is the
`matchers` vector of evaluated booleans; on a true matcher the name is
inserted and the matched words appended, then under OR the matched flag is set
(stopping if `stop_at_first_match`); on a false matcher OR continues and AND
sets the flag false and breaks.  An evaluation error aborts, keeping the
mutations made so far. -/
def matcherLoop (cond : Condition) (stop : Bool) (target : Target)
    (respExt : Option Response) (ms : List Matcher) (acc : List Bool)
    (result : OperatorResult) :
    Except EngineError Unit × List Bool × OperatorResult :=
  match ms with
  | [] => (Except.ok (), acc, result)
  | m :: rest =>
    match evalOne target respExt m with
    | Except.error e => (Except.error e, acc, result)
    | Except.ok (isMatch, mw) =>
      let acc2 := acc ++ [isMatch]
      if isMatch then
        let result2 : OperatorResult :=
          { result with
            name := match m.name with
                    | some n => setInsert result.name n
                    | Option.none => result.name
            matcher_word := result.matcher_word ++ mw }
        match cond with
        | Condition.Or =>
          let result3 := { result2 with matched := true }
          if stop then (Except.ok (), acc2, result3)
          else matcherLoop cond stop target respExt rest acc2 result3
        | Condition.And => matcherLoop cond stop target respExt rest acc2 result2
      else
        match cond with
        | Condition.Or => matcherLoop cond stop target respExt rest acc2 result
        | Condition.And => (Except.ok (), acc2, { result with matched := false })

/-- `Operators::matcher_generic` (lines 137-212): early `Ok` on an empty
matcher list, then the matcher loop, then the final AND rule — if the
condition is AND and every evaluated boolean was true, set the matched flag. -/
def matcher_generic (op : Operators) (target : Target) (respExt : Option Response)
    (result : OperatorResult) : Except EngineError Unit × OperatorResult :=
  if op.matchers.isEmpty then (Except.ok (), result)
  else
    match matcherLoop op.matchers_condition op.stop_at_first_match target respExt
        op.matchers [] result with
    | (Except.error e, _, r) => (Except.error e, r)
    | (Except.ok (), bs, r) =>
      if op.matchers_condition = Condition.And ∧ bs.all (fun x => x) then
        (Except.ok (), { r with matched := true })
      else (Except.ok (), r)

/-- The per-kind extraction step of `extractor_generic` (lines 104-110). -/
def evalExtractorKind (e : Extractor) (version : Option Version) (words : List String)
    (body : String) : List String × List (String × String) :=
  match e.extractor_type with
  | ExtractorType.regex f => f words body version
  | ExtractorType.json f => f words
  | ExtractorType.kval | ExtractorType.xpath | ExtractorType.dsl => ([], [])

/-- The version-tag merge of `extractor_generic` (lines 119-121): each entry
is inserted as a singleton set under its own key. -/
def versionFold (m : List (String × List String)) (ver : List (String × String)) :
    List (String × List String) :=
  ver.foldl (fun m2 kv => btInsert m2 kv.1 [kv.2]) m

/-- One iteration of the extractor loop (lines 97-122): a retrieval failure
skips the extractor; otherwise the kind step runs, a non-empty extraction is
merged under the extractor's name (or its stringified index), and every
version-tag entry is inserted as a singleton set. -/
def extractorStep (version : Option Version) (target : Target) (idx : Nat)
    (e : Extractor) (result : OperatorResult) : OperatorResult :=
  match target e.part with
  | Except.error _ => result
  | Except.ok (words, body) =>
    let ev := evalExtractorKind e version words body
    let result2 :=
      if ev.1.isEmpty then result
      else
        { result with
          extract_result := mergeExtract result.extract_result
            (e.name.getD (toString idx)) ev.1 }
    { result2 with extract_result := versionFold result2.extract_result ev.2 }

/-- The indexed extractor loop (the `enumerate()` of line 97). -/
def extractorLoop (version : Option Version) (target : Target) (es : List Extractor)
    (idx : Nat) (result : OperatorResult) : OperatorResult :=
  match es with
  | [] => result
  | e :: rest => extractorLoop version target rest (idx + 1)
      (extractorStep version target idx e result)

/-- `Operators::extractor_generic` (lines 91-123). -/
def extractor_generic (op : Operators) (version : Option Version) (target : Target)
    (result : OperatorResult) : OperatorResult :=
  extractorLoop version target op.extractors 0 result

/-- `Operators::matcher` (line 215): match a response against itself as
target, passing it for extensions. -/
def Operators.matcher (op : Operators) (resp : Response) (result : OperatorResult) :
    Except EngineError Unit × OperatorResult :=
  matcher_generic op resp.get_part (some resp) result

/-- `Operators::extractor` (line 125). -/
def Operators.extractor (op : Operators) (version : Option Version) (resp : Response)
    (result : OperatorResult) : OperatorResult :=
  extractor_generic op version resp.get_part result

/-- Per-template metadata; the core reads only the expected-version hint. -/
structure Info where
  version : Option Version

def Info.get_version (i : Info) : Option Version := i.version

/-- The reporting sink: the optional response it carries plus the ordered
list of pushed events (template name, Info, OperatorResult). -/
structure MatchEvent where
  response : Option Response := Option.none
  events : List (String × Info × OperatorResult) := []

/-- `MatchEvent::push`: append one qualifying event. -/
def MatchEvent.push (ev : MatchEvent) (t : String) (i : Info) (r : OperatorResult) :
    MatchEvent :=
  { ev with events := ev.events ++ [(t, i, r)] }

/-- Modelled from the spec: the external `slinger::Response::default()` used
by `unwrap_or_default()` — a missing response is treated as an empty default,
an explicit policy, not an error.  Its concrete content is irrelevant to the
theorems below. -/
def defaultResponse : Response :=
  { get_part := fun _ => Except.ok ([], "")
    status_code := 200
    favicon_ext := Option.none }

/-- `ClusteredOperator` (execute.rs lines 11-15). -/
structure ClusteredOperator where
  template : String
  info : Info
  operators : List Operators

/-- The loop body of `ClusteredOperator::matcher` (execute.rs lines 29-38):
run the block's matcher with a fresh default result; on error skip the block;
otherwise run the extractor and push the result when it matched or
extracted. -/
def clusterBlockStep (template : String) (info : Info) (response : Response)
    (ev : MatchEvent) (op : Operators) : MatchEvent :=
  match op.matcher response default with
  | (Except.error _, _) => ev
  | (Except.ok (), r) =>
    let r2 := op.extractor info.get_version response r
    if r2.is_matched || r2.is_extract then ev.push template info r2
    else ev

/-- `ClusteredOperator::matcher` (execute.rs lines 27-39): default the missing
response, then run every Operators block in order. -/
def ClusteredOperator.matcher (co : ClusteredOperator) (results : MatchEvent) :
    MatchEvent :=
  let response := results.response.getD defaultResponse
  co.operators.foldl (clusterBlockStep co.template co.info response) results

/-- Specification-side per-block contribution of one Operators block inside
`ClusteredOperator::matcher`: `none` when the block's matcher errors or the
result neither matched nor extracted, otherwise the event it pushes. -/
def blockContribution (template : String) (info : Info) (response : Response)
    (op : Operators) : Option (String × Info × OperatorResult) :=
  match op.matcher response default with
  | (Except.error _, _) => Option.none
  | (Except.ok (), r) =>
    let r2 := op.extractor info.get_version response r
    if r2.is_matched || r2.is_extract then some (template, info, r2)
    else Option.none

/-- Opaque stand-ins for the probe definition and port constraint types that
live outside the excerpt (`request.rs`). -/
structure PortRange where
  low : Nat
  high : Nat

structure Requests where
  tag : String

/-- `ClusterExecute` (execute.rs lines 86-90). -/
structure ClusterExecute where
  requests : Requests
  rarity : Nat
  operators : List ClusteredOperator

/-- `ClusterType` (execute.rs lines 65-72); the two `BTreeMap`s become
association lists. -/
structure ClusterType where
  web_default : List ClusterExecute := []
  web_favicon : List ClusterExecute := []
  web_other : List ClusterExecute := []
  tcp_default : Option ClusterExecute := Option.none
  tcp_other : List (String × ClusterExecute) := []
  port_range : List (String × Option PortRange) := []

/-- `ClusterType::count` (execute.rs lines 75-82). -/
def ClusterType.count (c : ClusterType) : Nat :=
  let count := c.web_default.length + c.web_other.length + c.web_favicon.length
    + c.tcp_other.length
  if c.tcp_default.isSome then count + 1 else count

/-- The post-negation boolean of one matcher as a Bool: true exactly when the
matcher evaluates without error to true. -/
def evalTrueB (target : Target) (respExt : Option Response) (m : Matcher) : Bool :=
  evalBool target respExt m == some true

/-- Concrete sample values used by the closed witness theorems below. -/
def okTarget : Target := fun _ => Except.ok (["Apache"], "server: Apache")

def failTarget : Target := fun _ => Except.error (EngineError.retrieval "no part")

def wordTrueMatcher : Matcher :=
  { matcher_type := MatcherType.word (fun ws => (true, ws))
    name := some "apache-server" }

def wordTrueMatcherB : Matcher :=
  { matcher_type := MatcherType.word (fun _ => (true, ["second"]))
    name := some "second-rule" }

def wordFalseMatcher : Matcher :=
  { matcher_type := MatcherType.word (fun _ => (false, []))
    name := some "never" }

def faviconSampleMatcher : Matcher :=
  { matcher_type := MatcherType.favicon (fun _ => (true, [])) }

def statusSampleMatcher : Matcher :=
  { matcher_type := MatcherType.status (fun c => c == 200) }

def noFaviconResponse : Response :=
  { get_part := okTarget
    status_code := 200
    favicon_ext := Option.none }

def versionSampleExtractor : Extractor :=
  { extractor_type := ExtractorType.regex (fun _ _ _ => (["1.2.3"], [("version", "1.2.3")]))
    name := some "ver" }

def plainSampleExtractor : Extractor :=
  { extractor_type := ExtractorType.regex (fun _ _ _ => (["admin"], []))
    name := some "user" }

/-- A target whose header part cannot be retrieved while the body part can. -/
def mixedTarget : Target := fun p =>
  match p with
  | Part.header => Except.error (EngineError.retrieval "no header")
  | _ => Except.ok (["word"], "body")

def headerFailMatcher : Matcher :=
  { matcher_type := MatcherType.word (fun ws => (true, ws))
    part := Part.header }

def headerFailExtractor : Extractor :=
  { extractor_type := ExtractorType.regex (fun _ _ _ => (["x"], []))
    part := Part.header }

def opOrW : Operators := { matchers := [wordTrueMatcher, wordTrueMatcherB] }

def opStopW : Operators :=
  { stop_at_first_match := true
    matchers := [wordFalseMatcher, wordTrueMatcher, wordTrueMatcherB] }

def opC4W : Operators :=
  { matchers := [wordFalseMatcher, headerFailMatcher, wordTrueMatcherB] }

/-- An AND Operators whose favicon matcher sits after a false matcher: the
false matcher short-circuits, so the favicon matcher is never reached. -/
def opC5Counter : Operators :=
  { matchers_condition := Condition.And
    matchers := [wordFalseMatcher, faviconSampleMatcher] }

def opC5W : Operators :=
  { matchers := [faviconSampleMatcher, wordTrueMatcher] }

def opC6W : Operators :=
  { matchers := [statusSampleMatcher, faviconSampleMatcher] }

def opAndW : Operators :=
  { matchers_condition := Condition.And
    matchers := [wordTrueMatcher, wordTrueMatcherB] }

/-- C9: for every ClusterType value, `count()` equals the sum of the
cardinalities of web_default, web_favicon, web_other and tcp_other, plus one
exactly when tcp_default is present. -/
theorem clusterType_count_eq_sum (c : ClusterType) :
    c.count = c.web_default.length + c.web_favicon.length + c.web_other.length
      + c.tcp_other.length + (if c.tcp_default.isSome then 1 else 0) := by
  unfold ClusterType.count
  cases h : c.tcp_default.isSome <;> simp [h] <;> omega

/-- C10: for every Operators value whose matcher list is empty,
`matcher_generic` returns Ok and leaves the OperatorResult unchanged; in
particular the matched flag of a default result stays false even under the
AND condition, for which the final all-true rule would otherwise fire
vacuously. -/
theorem matcher_generic_empty (op : Operators) (target : Target)
    (respExt : Option Response) (r : OperatorResult) (h : op.matchers = []) :
    matcher_generic op target respExt r = (Except.ok (), r) ∧
      (matcher_generic op target respExt default).2.matched = false := by
  unfold matcher_generic
  simp [h]
  rfl

/-- Witness for C10 at a concrete Operators value with the AND condition. -/
theorem matcher_generic_empty_witness :
    ({ matchers_condition := Condition.And } : Operators).matchers = [] ∧
      (matcher_generic { matchers_condition := Condition.And }
          (fun _ => Except.ok ([], "")) Option.none default
        = (Except.ok (), default) ∧
       (matcher_generic { matchers_condition := Condition.And }
          (fun _ => Except.ok ([], "")) Option.none default).2.matched = false) :=
  ⟨rfl, matcher_generic_empty { matchers_condition := Condition.And }
    (fun _ => Except.ok ([], "")) Option.none default rfl⟩


/-- Membership after a HashSet-style insert: the inserted element is present. -/
theorem setInsert_self (s : List String) (x : String) : x ∈ setInsert s x := by
  unfold setInsert
  by_cases h : x ∈ s <;> simp [h]

/-- Membership after a HashSet-style insert is preserved. -/
theorem setInsert_mono (s : List String) (x y : String) (h : y ∈ s) :
    y ∈ setInsert s x := by
  unfold setInsert
  by_cases hx : x ∈ s <;> simp [hx, h]

/-- A defined post-negation boolean comes from an error-free evaluation. -/
theorem evalBool_ok (t : Target) (re : Option Response) (m : Matcher) (b : Bool)
    (h : evalBool t re m = some b) :
    ∃ mw, evalOne t re m = Except.ok (b, mw) := by
  unfold evalBool at h
  cases hev : evalOne t re m with
  | ok p =>
    obtain ⟨b2, mw⟩ := p
    rw [hev] at h
    simp at h
    subst h
    exact ⟨mw, rfl⟩
  | error e => rw [hev] at h; simp at h

/-- Converse direction: an error-free evaluation determines the boolean. -/
theorem evalBool_of_evalOne (t : Target) (re : Option Response) (m : Matcher)
    (b : Bool) (mw : List String) (h : evalOne t re m = Except.ok (b, mw)) :
    evalBool t re m = some b := by
  unfold evalBool
  rw [h]

/-- When every matcher of the list evaluates without error, the matcher loop
finishes with Ok, whatever the condition and stop flag. -/
theorem matcherLoop_ok (cond : Condition) (stop : Bool) (t : Target)
    (re : Option Response) (ms : List Matcher)
    (hok : ∀ m ∈ ms, (evalBool t re m).isSome) (acc : List Bool)
    (r : OperatorResult) :
    (matcherLoop cond stop t re ms acc r).1 = Except.ok () := by
  induction ms generalizing acc r with
  | nil => simp [matcherLoop]
  | cons m rest ih =>
    have hm := hok m (by simp)
    rw [Option.isSome_iff_exists] at hm
    obtain ⟨b, hb⟩ := hm
    obtain ⟨mw, hev⟩ := evalBool_ok t re m b hb
    have hrest : ∀ m2 ∈ rest, (evalBool t re m2).isSome :=
      fun m2 h2 => hok m2 (by simp [h2])
    cases b with
    | true =>
      cases cond with
      | Or =>
        cases stop with
        | true => simp [matcherLoop, hev]
        | false => simp only [matcherLoop, hev]; simpa using ih hrest _ _
      | And => simp only [matcherLoop, hev]; simpa using ih hrest _ _
    | false =>
      cases cond with
      | Or => simp only [matcherLoop, hev]; simpa using ih hrest _ _
      | And => simp [matcherLoop, hev]

/-- Reaching lemma: a block of matchers that all evaluate to false under OR
(or all to true under AND) is traversed without stopping, independently of
what follows; under OR the traversal leaves the result untouched. -/
theorem matcherLoop_reach (cond : Condition) (stop : Bool) (t : Target)
    (re : Option Response) (pre : List Matcher)
    (hpre : ∀ p ∈ pre, evalBool t re p = some (decide (cond = Condition.And)))
    (acc : List Bool) (r : OperatorResult) :
    ∃ acc2 r2, (cond = Condition.Or → r2 = r) ∧
      ∀ ms, matcherLoop cond stop t re (pre ++ ms) acc r =
        matcherLoop cond stop t re ms acc2 r2 := by
  induction pre generalizing acc r with
  | nil => exact ⟨acc, r, fun _ => rfl, fun ms => rfl⟩
  | cons p rest ih =>
    have hp := hpre p (by simp)
    obtain ⟨mw, hev⟩ := evalBool_ok t re p _ hp
    have hrest : ∀ q ∈ rest, evalBool t re q = some (decide (cond = Condition.And)) :=
      fun q hq => hpre q (by simp [hq])
    cases cond with
    | Or =>
      simp only [decide_eq_false (by simp : ¬(Condition.Or = Condition.And))] at hev
      obtain ⟨acc2, r2, hr, hms⟩ := ih hrest (acc ++ [false]) r
      refine ⟨acc2, r2, hr, fun ms => ?_⟩
      simp only [List.cons_append, matcherLoop, hev]
      simpa using hms ms
    | And =>
      have hev2 : evalOne t re p = Except.ok (true, mw) := by simpa using hev
      obtain ⟨acc2, r2, hr, hms⟩ := ih hrest (acc ++ [true])
        { r with
          name := match p.name with
                  | some n => setInsert r.name n
                  | Option.none => r.name
          matcher_word := r.matcher_word ++ mw }
      refine ⟨acc2, r2, fun h => by simp at h, fun ms => ?_⟩
      simp only [List.cons_append, matcherLoop, hev2]
      simpa using hms ms

/-- The default OperatorResult spelled out. -/
theorem operatorResult_default :
    (default : OperatorResult) =
      { matched := false, name := [], matcher_word := [], extract_result := [] } := rfl

/-- Characterization of the matcher loop under OR without stop-at-first-match:
it finishes Ok, the matched flag records whether some matcher evaluated true,
the name set and matched-word list only grow, and every true matcher has
contributed its name and its matched words. -/
theorem matcherLoop_or (t : Target) (re : Option Response) (ms : List Matcher)
    (hok : ∀ m ∈ ms, (evalBool t re m).isSome) (acc : List Bool)
    (r : OperatorResult) :
    ∃ bs r2, matcherLoop Condition.Or false t re ms acc r = (Except.ok (), bs, r2) ∧
      r2.matched = (r.matched || ms.any (evalTrueB t re)) ∧
      (∀ x ∈ r.name, x ∈ r2.name) ∧
      (∃ suf, r2.matcher_word = r.matcher_word ++ suf) ∧
      (∀ m ∈ ms, ∀ mw, evalOne t re m = Except.ok (true, mw) →
        (∀ n, m.name = some n → n ∈ r2.name) ∧ List.Sublist mw r2.matcher_word) := by
  induction ms generalizing acc r with
  | nil =>
    exact ⟨acc, r, rfl, by simp, fun x hx => hx, ⟨[], by simp⟩, by simp⟩
  | cons m rest ih =>
    have hm := hok m (by simp)
    rw [Option.isSome_iff_exists] at hm
    obtain ⟨b, hb⟩ := hm
    obtain ⟨mw0, hev⟩ := evalBool_ok t re m b hb
    have hrest : ∀ m2 ∈ rest, (evalBool t re m2).isSome :=
      fun m2 h2 => hok m2 (by simp [h2])
    cases b with
    | false =>
      obtain ⟨bs, r2, heq, hmt, hname, hword, htrue⟩ := ih hrest (acc ++ [false]) r
      refine ⟨bs, r2, ?_, ?_, hname, hword, ?_⟩
      · simp only [matcherLoop, hev]
        simpa using heq
      · rw [hmt]
        have hf : evalTrueB t re m = false := by simp [evalTrueB, hb]
        simp [hf]
      · intro m2 hm2 mw hmw
        rcases List.mem_cons.mp hm2 with h | h
        · subst h
          rw [hev] at hmw
          simp at hmw
        · exact htrue m2 h mw hmw
    | true =>
      obtain ⟨bs, r2, heq, hmt, hname, hword, htrue⟩ := ih hrest (acc ++ [true])
        { r with
          matched := true
          name := match m.name with
                  | some n => setInsert r.name n
                  | Option.none => r.name
          matcher_word := r.matcher_word ++ mw0 }
      refine ⟨bs, r2, ?_, ?_, ?_, ?_, ?_⟩
      · simp only [matcherLoop, hev]
        simpa using heq
      · rw [hmt]
        have ht : evalTrueB t re m = true := by simp [evalTrueB, hb]
        simp [ht]
      · intro x hx
        apply hname
        cases hn : m.name with
        | some n => simpa [hn] using setInsert_mono r.name n x hx
        | _ => simpa [hn] using hx
      · obtain ⟨suf, hsuf⟩ := hword
        exact ⟨mw0 ++ suf, by simp only [hsuf]; simp⟩
      · intro m2 hm2 mw hmw
        rcases List.mem_cons.mp hm2 with h | h
        · subst h
          rw [hev] at hmw
          simp at hmw
          subst hmw
          constructor
          · intro n hn
            apply hname
            simp [hn, setInsert_self]
          · obtain ⟨suf, hsuf⟩ := hword
            rw [hsuf]
            simp only [List.append_assoc]
            exact (List.sublist_append_left mw0 suf).trans
              (List.sublist_append_right r.matcher_word (mw0 ++ suf))
        · exact htrue m2 h mw hmw

/-- C2: for every Operators value with matchers_condition = OR and
stop_at_first_match = false, `matcher_generic` sets the matched flag true iff
at least one matcher (after its negate flag) evaluates true, and every true
matcher — not only the first — has its name (when present) inserted into
result.name and its matched words appended to result.matcher_word. -/
theorem matcher_generic_or_accumulates (op : Operators) (t : Target)
    (re : Option Response) (hc : op.matchers_condition = Condition.Or)
    (hs : op.stop_at_first_match = false)
    (hok : ∀ m ∈ op.matchers, (evalBool t re m).isSome) :
    ∃ r, matcher_generic op t re default = (Except.ok (), r) ∧
      (r.matched = true ↔ ∃ m ∈ op.matchers, evalBool t re m = some true) ∧
      (∀ m ∈ op.matchers, ∀ mw, evalOne t re m = Except.ok (true, mw) →
        (∀ n, m.name = some n → n ∈ r.name) ∧ List.Sublist mw r.matcher_word) := by
  rcases hms : op.matchers with _ | ⟨m0, rest⟩
  · refine ⟨default, ?_, ?_, ?_⟩
    · unfold matcher_generic
      simp [hms]
    · simp [hms, operatorResult_default]
    · simp [hms]
  · obtain ⟨bs, r2, heq, hmt, hname, hword, htrue⟩ :=
      matcherLoop_or t re (m0 :: rest) (hms ▸ hok) [] default
    refine ⟨r2, ?_, ?_, ?_⟩
    · unfold matcher_generic
      rw [hms, hc, hs]
      simp only [List.isEmpty_cons, Bool.false_eq_true, if_false, heq]
      simp
    · rw [hmt]
      simp only [operatorResult_default, Bool.false_or]
      rw [List.any_eq_true]
      constructor
      · rintro ⟨m, hm, hpm⟩
        exact ⟨m, hm, by simpa [evalTrueB] using hpm⟩
      · rintro ⟨m, hm, hpm⟩
        exact ⟨m, hm, by simp [evalTrueB, hpm]⟩
    · exact htrue

/-- Witness for C2: two true word matchers under the default OR condition,
both of which contribute their names and words. -/
theorem matcher_generic_or_accumulates_witness :
    opOrW.matchers_condition = Condition.Or ∧
    opOrW.stop_at_first_match = false ∧
    (∀ m ∈ opOrW.matchers, (evalBool okTarget Option.none m).isSome) ∧
    (∃ r, matcher_generic opOrW okTarget Option.none default = (Except.ok (), r) ∧
      (r.matched = true ↔ ∃ m ∈ opOrW.matchers, evalBool okTarget Option.none m = some true) ∧
      (∀ m ∈ opOrW.matchers, ∀ mw, evalOne okTarget Option.none m = Except.ok (true, mw) →
        (∀ n, m.name = some n → n ∈ r.name) ∧ List.Sublist mw r.matcher_word)) :=
  ⟨rfl, rfl, by decide,
    matcher_generic_or_accumulates opOrW okTarget Option.none rfl rfl (by decide)⟩

/-- Characterization of the matcher loop under AND: it finishes Ok when every
matcher up to the first false one evaluates, the boolean vector is all-true
exactly when the accumulator was and every matcher evaluated true, and the
matched flag is reset to false as soon as one matcher is false. -/
theorem matcherLoop_and (stop : Bool) (t : Target) (re : Option Response)
    (ms : List Matcher) (hok : ∀ m ∈ ms, (evalBool t re m).isSome)
    (acc : List Bool) (r : OperatorResult) :
    ∃ bs r2, matcherLoop Condition.And stop t re ms acc r = (Except.ok (), bs, r2) ∧
      (bs.all (fun x => x) = (acc.all (fun x => x) && ms.all (evalTrueB t re))) ∧
      (r2.matched = if ms.all (evalTrueB t re) then r.matched else false) := by
  induction ms generalizing acc r with
  | nil => exact ⟨acc, r, rfl, by simp, by simp⟩
  | cons m rest ih =>
    obtain ⟨b, hb⟩ := Option.isSome_iff_exists.mp (hok m (by simp))
    obtain ⟨mw0, hev⟩ := evalBool_ok t re m b hb
    have hrest : ∀ m2 ∈ rest, (evalBool t re m2).isSome :=
      fun m2 h2 => hok m2 (by simp [h2])
    cases b with
    | true =>
      obtain ⟨bs, r2, heq, hall, hmt⟩ := ih hrest (acc ++ [true])
        { r with
          name := match m.name with
                  | some n => setInsert r.name n
                  | Option.none => r.name
          matcher_word := r.matcher_word ++ mw0 }
      have ht : evalTrueB t re m = true := by simp [evalTrueB, hb]
      refine ⟨bs, r2, ?_, ?_, ?_⟩
      · simp only [matcherLoop, hev]
        simpa using heq
      · rw [hall]
        simp [ht]
      · rw [hmt]
        simp [ht]
    | false =>
      have hf : evalTrueB t re m = false := by simp [evalTrueB, hb]
      refine ⟨acc ++ [false], { r with matched := false }, ?_, ?_, ?_⟩
      · simp [matcherLoop, hev]
      · simp [hf]
      · simp [hf]

/-- C1: for every Operators value with matchers_condition = AND and a
non-empty matcher list (all of whose matchers evaluate without error), the
matched flag is set iff every matcher (after its negate flag) evaluated true;
moreover the first false matcher halts evaluation — the matchers after it are
never evaluated, so replacing them changes nothing. -/
theorem matcher_generic_and_semantics (op : Operators) (t : Target)
    (re : Option Response) (hc : op.matchers_condition = Condition.And)
    (hne : op.matchers ≠ [])
    (hok : ∀ m ∈ op.matchers, (evalBool t re m).isSome) :
    (∃ r, matcher_generic op t re default = (Except.ok (), r) ∧
      (r.matched = true ↔ ∀ m ∈ op.matchers, evalBool t re m = some true)) ∧
    (∀ pre m post post2, op.matchers = pre ++ m :: post →
      (∀ p ∈ pre, evalBool t re p = some true) →
      evalBool t re m = some false →
      matcher_generic { op with matchers := pre ++ m :: post2 } t re default =
        matcher_generic op t re default) := by
  constructor
  · rcases hms : op.matchers with _ | ⟨m0, rest⟩
    · exact absurd hms hne
    · obtain ⟨bs, r2, heq, hall, hmt⟩ :=
        matcherLoop_and op.stop_at_first_match t re (m0 :: rest) (hms ▸ hok) [] default
      have hiff : (m0 :: rest).all (evalTrueB t re) = true ↔
          ∀ m ∈ m0 :: rest, evalBool t re m = some true := by
        rw [List.all_eq_true]
        constructor
        · intro h m hm
          simpa [evalTrueB] using h m hm
        · intro h m hm
          simp [evalTrueB, h m hm]
      by_cases hallb : (m0 :: rest).all (evalTrueB t re) = true
      · refine ⟨{ r2 with matched := true }, ?_, ?_⟩
        · unfold matcher_generic
          rw [hms, hc]
          have hba : bs.all (fun x => x) = true := by
            rw [hall, hallb]
            simp
          simp [heq, hba]
        · simp only [true_iff]
          exact hiff.mp hallb
      · have hallf : (m0 :: rest).all (evalTrueB t re) = false :=
          Bool.eq_false_iff.mpr hallb
        refine ⟨r2, ?_, ?_⟩
        · unfold matcher_generic
          rw [hms, hc]
          have hba : bs.all (fun x => x) = false := by
            rw [hall, hallf]
            simp
          simp [heq, hba]
        · rw [hmt, hallf]
          simp only [Bool.false_eq_true, if_false]
          constructor
          · intro h
            exact absurd h (by simp)
          · intro h
            exact absurd (hiff.mpr h) hallb
  · intro pre m post post2 hsplit hpre hm
    obtain ⟨mwm, hevm⟩ := evalBool_ok t re m false hm
    obtain ⟨acc2, rr2, _, hstep⟩ := matcherLoop_reach Condition.And
      op.stop_at_first_match t re pre (fun p hp => by simpa using hpre p hp) [] default
    have hval : ∀ ms2, matcherLoop Condition.And op.stop_at_first_match t re
        (m :: ms2) acc2 rr2 =
        (Except.ok (), acc2 ++ [false], { rr2 with matched := false }) := by
      intro ms2
      simp [matcherLoop, hevm]
    unfold matcher_generic
    simp only [hsplit, hc]
    rw [hstep (m :: post2), hstep (m :: post), hval post2, hval post]
    simp

/-- Witness for C1: two always-true word matchers under the AND condition. -/
theorem matcher_generic_and_semantics_witness :
    opAndW.matchers_condition = Condition.And ∧
    opAndW.matchers ≠ [] ∧
    (∀ m ∈ opAndW.matchers, (evalBool okTarget Option.none m).isSome) ∧
    ((∃ r, matcher_generic opAndW okTarget Option.none default = (Except.ok (), r) ∧
      (r.matched = true ↔ ∀ m ∈ opAndW.matchers, evalBool okTarget Option.none m = some true)) ∧
    (∀ pre m post post2, opAndW.matchers = pre ++ m :: post →
      (∀ p ∈ pre, evalBool okTarget Option.none p = some true) →
      evalBool okTarget Option.none m = some false →
      matcher_generic { opAndW with matchers := pre ++ m :: post2 } okTarget Option.none default =
        matcher_generic opAndW okTarget Option.none default)) :=
  ⟨rfl, by simp [opAndW], by decide,
    matcher_generic_and_semantics opAndW okTarget Option.none rfl (by simp [opAndW]) (by decide)⟩

/-- C3: for every Operators value with matchers_condition = OR and
stop_at_first_match = true, when the matchers before `m` all evaluate false
and `m` evaluates true (with further true matchers available after it), the
result records only `m`'s name and matched words, and no matcher after `m` is
evaluated — replacing everything after `m` changes nothing. -/
theorem matcher_generic_stop_at_first (op : Operators) (t : Target)
    (re : Option Response) (hc : op.matchers_condition = Condition.Or)
    (hs : op.stop_at_first_match = true) (pre : List Matcher) (m : Matcher)
    (post : List Matcher) (hsplit : op.matchers = pre ++ m :: post)
    (hpre : ∀ p ∈ pre, evalBool t re p = some false) (mw : List String)
    (hm : evalOne t re m = Except.ok (true, mw))
    (_hpost : ∃ m2 ∈ post, evalBool t re m2 = some true) :
    matcher_generic op t re default =
      (Except.ok (), { matched := true
                       name := match m.name with
                               | some n => [n]
                               | Option.none => []
                       matcher_word := mw
                       extract_result := [] }) ∧
    (∀ post2, matcher_generic { op with matchers := pre ++ m :: post2 } t re default =
      matcher_generic op t re default) := by
  obtain ⟨acc2, rr2, hro, hstep⟩ := matcherLoop_reach Condition.Or true t re pre
    (fun p hp => by simpa using hpre p hp) [] default
  have hrr2 : rr2 = default := hro rfl
  subst hrr2
  have hval : ∀ ms2, matcherLoop Condition.Or true t re (m :: ms2) acc2 default =
      (Except.ok (), acc2 ++ [true],
        { matched := true
          name := match m.name with
                  | some n => [n]
                  | Option.none => []
          matcher_word := mw
          extract_result := [] }) := by
    intro ms2
    cases hn : m.name with
    | some n => simp [matcherLoop, hm, hn, operatorResult_default, setInsert]
    | _ => simp [matcherLoop, hm, hn, operatorResult_default]
  constructor
  · unfold matcher_generic
    rw [hsplit, hc, hs]
    rw [if_neg (by simp)]
    rw [hstep (m :: post), hval post]
    simp
  · intro post2
    unfold matcher_generic
    simp only [hsplit, hc, hs]
    rw [if_neg (by simp), if_neg (by simp)]
    rw [hstep (m :: post2), hstep (m :: post), hval post2, hval post]

/-- Witness for C3: a false matcher, then a named true matcher, then another
true matcher that is never reached because of stop-at-first-match. -/
theorem matcher_generic_stop_at_first_witness :
    opStopW.matchers_condition = Condition.Or ∧
    opStopW.stop_at_first_match = true ∧
    opStopW.matchers = [wordFalseMatcher] ++ wordTrueMatcher :: [wordTrueMatcherB] ∧
    (∀ p ∈ [wordFalseMatcher], evalBool okTarget Option.none p = some false) ∧
    evalOne okTarget Option.none wordTrueMatcher = Except.ok (true, ["Apache"]) ∧
    (∃ m2 ∈ [wordTrueMatcherB], evalBool okTarget Option.none m2 = some true) ∧
    (matcher_generic opStopW okTarget Option.none default =
      (Except.ok (), { matched := true
                       name := match wordTrueMatcher.name with
                               | some n => [n]
                               | Option.none => []
                       matcher_word := ["Apache"]
                       extract_result := [] }) ∧
    (∀ post2, matcher_generic { opStopW with matchers := [wordFalseMatcher] ++ wordTrueMatcher :: post2 }
        okTarget Option.none default =
      matcher_generic opStopW okTarget Option.none default)) :=
  ⟨rfl, rfl, rfl, by decide, rfl, ⟨wordTrueMatcherB, by simp, by decide⟩,
    matcher_generic_stop_at_first opStopW okTarget Option.none rfl rfl
      [wordFalseMatcher] wordTrueMatcher [wordTrueMatcherB] rfl (by decide)
      ["Apache"] rfl ⟨wordTrueMatcherB, by simp, by decide⟩⟩

/-- C4: the error policy is asymmetric by design.  In `matcher_generic`, a
content-retrieval failure at any reached matcher's part aborts the whole call
with that error and no later matcher is evaluated (replacing the tail changes
nothing), while in the extractor loop a retrieval failure for one extractor
skips only that extractor: the loop continues on the remaining extractors
(with the index still advanced), so later extractors still contribute. -/
theorem error_policy_asymmetry (op : Operators) (t : Target) (re : Option Response)
    (pre : List Matcher) (m : Matcher) (post : List Matcher)
    (hsplit : op.matchers = pre ++ m :: post)
    (hpre : ∀ p ∈ pre, evalBool t re p =
      some (decide (op.matchers_condition = Condition.And)))
    (err : EngineError) (herr : t m.part = Except.error err)
    (v : Option Version) (t2 : Target) (eBad : Extractor) (rest : List Extractor)
    (idx : Nat) (r2 : OperatorResult) (err2 : EngineError)
    (herr2 : t2 eBad.part = Except.error err2) :
    (matcher_generic op t re default).1 = Except.error err ∧
    (∀ post2, matcher_generic { op with matchers := pre ++ m :: post2 } t re default =
      matcher_generic op t re default) ∧
    extractorLoop v t2 (eBad :: rest) idx r2 = extractorLoop v t2 rest (idx + 1) r2 := by
  obtain ⟨acc2, rr2, _, hstep⟩ := matcherLoop_reach op.matchers_condition
    op.stop_at_first_match t re pre hpre [] default
  have hevm : evalOne t re m = Except.error err := by
    unfold evalOne
    rw [herr]
  have hval : ∀ ms2, matcherLoop op.matchers_condition op.stop_at_first_match t re
      (m :: ms2) acc2 rr2 = (Except.error err, acc2, rr2) := by
    intro ms2
    simp [matcherLoop, hevm]
  refine ⟨?_, ?_, ?_⟩
  · unfold matcher_generic
    rw [hsplit]
    rw [if_neg (by simp)]
    rw [hstep (m :: post), hval post]
  · intro post2
    unfold matcher_generic
    simp only [hsplit]
    rw [if_neg (by simp), if_neg (by simp)]
    rw [hstep (m :: post2), hstep (m :: post), hval post2, hval post]
  · simp [extractorLoop, extractorStep, herr2]

/-- Witness for C4: a false matcher followed by a matcher whose header part
cannot be retrieved, and an extractor loop whose first extractor's part
cannot be retrieved. -/
theorem error_policy_asymmetry_witness :
    opC4W.matchers = [wordFalseMatcher] ++ headerFailMatcher :: [wordTrueMatcherB] ∧
    (∀ p ∈ [wordFalseMatcher], evalBool mixedTarget Option.none p =
      some (decide (opC4W.matchers_condition = Condition.And))) ∧
    mixedTarget headerFailMatcher.part = Except.error (EngineError.retrieval "no header") ∧
    mixedTarget headerFailExtractor.part = Except.error (EngineError.retrieval "no header") ∧
    ((matcher_generic opC4W mixedTarget Option.none default).1 =
      Except.error (EngineError.retrieval "no header") ∧
    (∀ post2, matcher_generic { opC4W with matchers := [wordFalseMatcher] ++ headerFailMatcher :: post2 }
        mixedTarget Option.none default =
      matcher_generic opC4W mixedTarget Option.none default) ∧
    extractorLoop Option.none mixedTarget (headerFailExtractor :: [plainSampleExtractor]) 0 default =
      extractorLoop Option.none mixedTarget [plainSampleExtractor] (0 + 1) default) :=
  ⟨rfl, by decide, rfl, rfl,
    error_policy_asymmetry opC4W mixedTarget Option.none
      [wordFalseMatcher] headerFailMatcher [wordTrueMatcherB] rfl (by decide)
      (EngineError.retrieval "no header") rfl
      Option.none mixedTarget headerFailExtractor [plainSampleExtractor] 0 default
      (EngineError.retrieval "no header") rfl⟩

/-- Counterexample to C5 as stated: an Operators value containing a Favicon
matcher, evaluated against a response whose extension map lacks the favicon
hash map, does NOT always return an error — here the AND condition
short-circuits on an earlier false matcher before the favicon matcher is
reached, and the call returns Ok. -/
theorem favicon_missing_map_counterexample :
    (∃ m ∈ opC5Counter.matchers, ∃ f, m.matcher_type = MatcherType.favicon f) ∧
    noFaviconResponse.favicon_ext = Option.none ∧
    matcher_generic opC5Counter okTarget (some noFaviconResponse) default =
      (Except.ok (), default) :=
  ⟨⟨faviconSampleMatcher, by simp [opC5Counter], ⟨fun _ => (true, []), rfl⟩⟩, rfl, rfl⟩

/-- C5 (amended): for every Operators value whose FIRST matcher is a Favicon
matcher (so the matcher is reached before any other mutation), when
`matcher_generic` is given a response for extensions whose extension map
lacks the favicon hash map, the call returns the "not found favicon" error
that aborts the whole pass, and the OperatorResult stays in its default,
unmatched state. -/
theorem matcher_generic_favicon_missing_map (op : Operators) (t : Target)
    (resp : Response) (m : Matcher) (rest : List Matcher)
    (hhead : op.matchers = m :: rest)
    (hfav : ∃ f, m.matcher_type = MatcherType.favicon f)
    (hext : resp.favicon_ext = Option.none)
    (wb : List String × String) (hok : t m.part = Except.ok wb) :
    matcher_generic op t (some resp) default =
      (Except.error (EngineError.io "not found favicon"), default) := by
  obtain ⟨f, hf⟩ := hfav
  obtain ⟨w, b⟩ := wb
  have hevm : evalOne t (some resp) m =
      Except.error (EngineError.io "not found favicon") := by
    simp [evalOne, hok, evalMatcherKind, hf, hext]
  have hval : matcherLoop op.matchers_condition op.stop_at_first_match t (some resp)
      (m :: rest) [] default =
      (Except.error (EngineError.io "not found favicon"), [], default) := by
    simp [matcherLoop, hevm]
  unfold matcher_generic
  rw [hhead]
  rw [if_neg (by simp)]
  rw [hval]

/-- Witness for the amended C5: a favicon-first Operators value against a
response with no favicon hash map. -/
theorem matcher_generic_favicon_missing_map_witness :
    opC5W.matchers = faviconSampleMatcher :: [wordTrueMatcher] ∧
    (∃ f, faviconSampleMatcher.matcher_type = MatcherType.favicon f) ∧
    noFaviconResponse.favicon_ext = Option.none ∧
    okTarget faviconSampleMatcher.part = Except.ok (["Apache"], "server: Apache") ∧
    matcher_generic opC5W okTarget (some noFaviconResponse) default =
      (Except.error (EngineError.io "not found favicon"), default) :=
  ⟨rfl, ⟨fun _ => (true, []), rfl⟩, rfl, rfl,
    matcher_generic_favicon_missing_map opC5W okTarget noFaviconResponse
      faviconSampleMatcher [wordTrueMatcher] rfl ⟨fun _ => (true, []), rfl⟩ rfl
      (["Apache"], "server: Apache") rfl⟩

/-- C6: for every Status matcher and every Favicon matcher, when
`matcher_generic` runs with no response for extensions (request-only target),
the matcher's raw per-kind evaluation is (false, []) and no error is returned
on its account: a matcher list made of such matchers (whose parts are
retrievable) finishes with Ok. -/
theorem status_favicon_request_only (op : Operators) (t : Target)
    (r : OperatorResult)
    (h : ∀ m ∈ op.matchers,
      ((∃ f, m.matcher_type = MatcherType.status f) ∨
        (∃ f, m.matcher_type = MatcherType.favicon f)) ∧
      ∃ wb, t m.part = Except.ok wb) :
    (∀ m ∈ op.matchers, ∀ w b,
      evalMatcherKind m Option.none w b = Except.ok (false, [])) ∧
    (matcher_generic op t Option.none r).1 = Except.ok () := by
  have hkind : ∀ m ∈ op.matchers, ∀ w b,
      evalMatcherKind m Option.none w b = Except.ok (false, []) := by
    intro m hm w b
    rcases (h m hm).1 with ⟨f, hf⟩ | ⟨f, hf⟩ <;> simp [evalMatcherKind, hf]
  refine ⟨hkind, ?_⟩
  have hok : ∀ m ∈ op.matchers, (evalBool t Option.none m).isSome := by
    intro m hm
    obtain ⟨⟨w, b⟩, hwb⟩ := (h m hm).2
    have hone : evalOne t Option.none m = Except.ok (m.applyNegative false, []) := by
      simp [evalOne, hwb, hkind m hm]
    simp [evalBool, hone]
  unfold matcher_generic
  by_cases he : op.matchers.isEmpty
  · simp [he]
  · rw [if_neg he]
    have hml : ∃ bs2 r2, matcherLoop op.matchers_condition op.stop_at_first_match
        t Option.none op.matchers [] r = (Except.ok (), bs2, r2) := by
      rcases hmm : matcherLoop op.matchers_condition op.stop_at_first_match
          t Option.none op.matchers [] r with ⟨st, bs2, r2⟩
      have h1 := matcherLoop_ok op.matchers_condition op.stop_at_first_match
        t Option.none op.matchers hok [] r
      rw [hmm] at h1
      simp at h1
      exact ⟨bs2, r2, by rw [h1]⟩
    obtain ⟨bs2, r2, heq⟩ := hml
    rw [heq]
    dsimp only
    split <;> rfl

/-- Witness for C6: a status matcher and a favicon matcher against a
request-only target (no response for extensions). -/
theorem status_favicon_request_only_witness :
    (∀ m ∈ opC6W.matchers,
      ((∃ f, m.matcher_type = MatcherType.status f) ∨
        (∃ f, m.matcher_type = MatcherType.favicon f)) ∧
      ∃ wb, okTarget m.part = Except.ok wb) ∧
    ((∀ m ∈ opC6W.matchers, ∀ w b,
      evalMatcherKind m Option.none w b = Except.ok (false, [])) ∧
     (matcher_generic opC6W okTarget Option.none default).1 = Except.ok ()) := by
  have hW : ∀ m ∈ opC6W.matchers,
      ((∃ f, m.matcher_type = MatcherType.status f) ∨
        (∃ f, m.matcher_type = MatcherType.favicon f)) ∧
      ∃ wb, okTarget m.part = Except.ok wb := by
    intro m hm
    have hm2 : m = statusSampleMatcher ∨ m = faviconSampleMatcher := by
      simpa [opC6W] using hm
    rcases hm2 with rfl | rfl
    · exact ⟨Or.inl ⟨fun c => c == 200, rfl⟩, ⟨(["Apache"], "server: Apache"), rfl⟩⟩
    · exact ⟨Or.inr ⟨fun _ => (true, []), rfl⟩, ⟨(["Apache"], "server: Apache"), rfl⟩⟩
  exact ⟨hW, status_favicon_request_only opC6W okTarget default hW⟩

/-- One cluster block step expressed through its contribution. -/
theorem clusterBlockStep_eq (template : String) (info : Info) (response : Response)
    (ev : MatchEvent) (op : Operators) :
    clusterBlockStep template info response ev op =
      match blockContribution template info response op with
      | Option.none => ev
      | some e => { ev with events := ev.events ++ [e] } := by
  unfold clusterBlockStep blockContribution
  rcases hm : op.matcher response default with ⟨st, r⟩
  cases st with
  | error e => rfl
  | ok u =>
    cases u
    dsimp only
    by_cases hc : ((op.extractor info.get_version response r).is_matched ||
        (op.extractor info.get_version response r).is_extract) = true
    · simp [hc, MatchEvent.push]
    · simp [hc]

/-- Folding the cluster block step appends exactly the per-block
contributions, in order. -/
theorem foldl_clusterBlockStep (template : String) (info : Info)
    (response : Response) (ops : List Operators) (ev : MatchEvent) :
    ops.foldl (clusterBlockStep template info response) ev =
      { ev with events := ev.events ++
        ops.filterMap (blockContribution template info response) } := by
  induction ops generalizing ev with
  | nil =>
    cases ev
    simp
  | cons op rest ih =>
    rw [List.foldl_cons, clusterBlockStep_eq]
    cases hb : blockContribution template info response op with
    | none =>
      rw [ih]
      simp [List.filterMap_cons, hb]
    | some e =>
      rw [ih]
      simp [List.filterMap_cons, hb]

/-- C7: in ClusteredOperator's response-only pass, the pushed events are
exactly the concatenation of the independent per-block contributions: a block
whose matcher errors contributes nothing (its extractor is not run and no
event is pushed for it), while every other block of the same
ClusteredOperator is still evaluated and can contribute. -/
theorem clustered_matcher_block_isolation (co : ClusteredOperator)
    (ev : MatchEvent) :
    co.matcher ev = { ev with events := ev.events ++
      (co.operators.filterMap
        (blockContribution co.template co.info (ev.response.getD defaultResponse))) } := by
  unfold ClusteredOperator.matcher
  exact foldl_clusterBlockStep co.template co.info (ev.response.getD defaultResponse)
    co.operators ev

/-- Lookup after a BTreeMap insert at the inserted key. -/
theorem btInsert_lookup_self (m : List (String × List String)) (k : String)
    (v : List String) : List.lookup k (btInsert m k v) = some v := by
  induction m with
  | nil => simp [btInsert, List.lookup]
  | cons kv rest ih =>
    obtain ⟨k0, v0⟩ := kv
    by_cases h : k0 = k
    · subst h
      simp [btInsert, List.lookup]
    · have hbeq : (k == k0) = false := by simp [Ne.symm h]
      simp [btInsert, h, List.lookup, hbeq, ih]

/-- Lookup after a BTreeMap insert at a different key. -/
theorem btInsert_lookup_ne (m : List (String × List String)) (k k2 : String)
    (v : List String) (h : k2 ≠ k) :
    List.lookup k2 (btInsert m k v) = List.lookup k2 m := by
  have hbeq : (k2 == k) = false := by simp [h]
  induction m with
  | nil => simp [btInsert, List.lookup, hbeq]
  | cons kv rest ih =>
    obtain ⟨k0, v0⟩ := kv
    by_cases h0 : k0 = k
    · subst h0
      simp [btInsert, List.lookup, hbeq]
    · simp [btInsert, h0, List.lookup, ih]

/-- Folding the version-tag inserts does not disturb other keys. -/
theorem versionFold_lookup_not_mem (ver : List (String × String))
    (m : List (String × List String)) (k : String) (h : k ∉ ver.map Prod.fst) :
    List.lookup k (versionFold m ver) = List.lookup k m := by
  induction ver generalizing m with
  | nil => rfl
  | cons kv rest ih =>
    obtain ⟨k0, v0⟩ := kv
    simp only [List.map_cons, List.mem_cons, not_or] at h
    obtain ⟨h1, h2⟩ := h
    have : versionFold m ((k0, v0) :: rest) = versionFold (btInsert m k0 [v0]) rest := rfl
    rw [this, ih _ h2, btInsert_lookup_ne m k0 k [v0] h1]

/-- Folding the version-tag inserts maps each entry's key (keys distinct) to
the singleton set of its value. -/
theorem versionFold_lookup_mem (ver : List (String × String))
    (hnd : (ver.map Prod.fst).Nodup) (m : List (String × List String))
    (k : String) (v : String) (hkv : (k, v) ∈ ver) :
    List.lookup k (versionFold m ver) = some [v] := by
  induction ver generalizing m with
  | nil => simp at hkv
  | cons kv rest ih =>
    obtain ⟨k0, v0⟩ := kv
    simp only [List.map_cons, List.nodup_cons] at hnd
    rcases List.mem_cons.mp hkv with heq | hmem
    · have hk : k = k0 := congrArg Prod.fst heq
      have hv : v = v0 := congrArg Prod.snd heq
      subst hk
      subst hv
      have hrw : versionFold m ((k, v) :: rest) = versionFold (btInsert m k [v]) rest := rfl
      rw [hrw, versionFold_lookup_not_mem rest _ k hnd.1]
      exact btInsert_lookup_self m k [v]
    · exact ih hnd.2 (btInsert m k0 [v0]) hmem

/-- C8: in `extractor_generic`, every version-tag entry produced by an
extractor is inserted into extract_result as a singleton set under its own
key, independently of the named extraction merged under the extractor's name
or positional index (keys outside the version map keep exactly the
named-merge value); `extractor_generic` runs precisely this step for each
extractor. -/
theorem extractor_version_tags_singleton (version : Option Version)
    (target : Target) (idx : Nat) (e : Extractor) (r : OperatorResult)
    (words : List String) (body : String) (er : List String)
    (ver : List (String × String))
    (hpart : target e.part = Except.ok (words, body))
    (hkind : evalExtractorKind e version words body = (er, ver))
    (hnd : (ver.map Prod.fst).Nodup) :
    (∀ kv ∈ ver, List.lookup kv.1 (extractorStep version target idx e r).extract_result
      = some [kv.2]) ∧
    (∀ k, k ∉ ver.map Prod.fst →
      List.lookup k (extractorStep version target idx e r).extract_result =
        List.lookup k (if er.isEmpty then r.extract_result
          else mergeExtract r.extract_result (e.name.getD (toString idx)) er)) ∧
    (∀ opX : Operators, opX.extractors = [e] →
      extractor_generic opX version target r = extractorStep version target 0 e r) := by
  have hstep : (extractorStep version target idx e r).extract_result =
      versionFold (if er.isEmpty then r.extract_result
        else mergeExtract r.extract_result (e.name.getD (toString idx)) er) ver := by
    unfold extractorStep
    rw [hpart]
    dsimp only
    rw [hkind]
    by_cases he : er.isEmpty <;> simp [he]
  refine ⟨?_, ?_, ?_⟩
  · intro kv hkv
    obtain ⟨k, v⟩ := kv
    rw [hstep]
    exact versionFold_lookup_mem ver hnd _ k v hkv
  · intro k hk
    rw [hstep]
    exact versionFold_lookup_not_mem ver _ k hk
  · intro opX hx
    unfold extractor_generic
    rw [hx]
    rfl

/-- Witness for C8: a regex extractor producing the named set {"1.2.3"} and
the version-tag entry ("version", "1.2.3"). -/
theorem extractor_version_tags_singleton_witness :
    okTarget versionSampleExtractor.part = Except.ok (["Apache"], "server: Apache") ∧
    evalExtractorKind versionSampleExtractor Option.none ["Apache"] "server: Apache" =
      (["1.2.3"], [("version", "1.2.3")]) ∧
    (([("version", "1.2.3")] : List (String × String)).map Prod.fst).Nodup ∧
    ((∀ kv ∈ [("version", "1.2.3")],
      List.lookup kv.1 (extractorStep Option.none okTarget 0 versionSampleExtractor default).extract_result
        = some [kv.2]) ∧
    (∀ k, k ∉ ([("version", "1.2.3")] : List (String × String)).map Prod.fst →
      List.lookup k (extractorStep Option.none okTarget 0 versionSampleExtractor default).extract_result =
        List.lookup k (if (["1.2.3"] : List String).isEmpty then
            (default : OperatorResult).extract_result
          else mergeExtract (default : OperatorResult).extract_result
            (versionSampleExtractor.name.getD (toString 0)) ["1.2.3"])) ∧
    (∀ opX : Operators, opX.extractors = [versionSampleExtractor] →
      extractor_generic opX Option.none okTarget default =
        extractorStep Option.none okTarget 0 versionSampleExtractor default)) :=
  ⟨rfl, rfl, by simp,
    extractor_version_tags_singleton Option.none okTarget 0 versionSampleExtractor
      default ["Apache"] "server: Apache" ["1.2.3"] [("version", "1.2.3")]
      rfl rfl (by simp)⟩

end Engine
